import Mathlib

/-!
Shallow embedding of the prop24-scraper core (`src/scraper.ts`, `src/types.ts`).
Pure text-to-value transforms (address/price/date parsing, status
classification) are translated as total Lean functions over character lists;
the browser-driven parts (location resolution, pagination) are translated as
state-passing functions over an explicit environment describing what the
rendered site returns at each step.
-/

namespace Prop24

/-! ### JavaScript string primitives, modelled over character lists -/

/-- JavaScript `String.prototype.trim`: drop whitespace from both ends. -/
def jsTrimChars (cs : List Char) : List Char :=
  ((cs.dropWhile Char.isWhitespace).reverse.dropWhile Char.isWhitespace).reverse

/-- Model of `s.trim()`. -/
def jsTrim (s : String) : String :=
  ⟨jsTrimChars s.data⟩

/-- Model of `s.toLowerCase()` (ASCII-level, matching `Char.toLower`). -/
def jsToLower (s : String) : String :=
  ⟨s.data.map Char.toLower⟩

/-- Splitting on a single separator character, as JavaScript
`String.prototype.split` does: preserves empty segments, and the empty
string splits into one empty segment. -/
def splitCharAux (sep : Char) (cur : List Char) : List Char → List (List Char)
  | [] => [cur.reverse]
  | c :: rest =>
    if c = sep then cur.reverse :: splitCharAux sep [] rest
    else splitCharAux sep (c :: cur) rest

def splitChar (sep : Char) (cs : List Char) : List (List Char) :=
  splitCharAux sep [] cs

/-- Model of `s.split(",")`. -/
def jsSplitComma (s : String) : List String :=
  (splitChar ',' s.data).map (fun cs => ⟨cs⟩)

/-- Substring containment over characters (JavaScript `includes`). -/
def containsChars (pat : List Char) : List Char → Bool
  | [] => pat.isEmpty
  | cs@(_ :: rest) => pat.isPrefixOf cs || containsChars pat rest

/-- Model of `s.includes(pat)`. -/
def containsStr (s pat : String) : Bool :=
  containsChars pat.data s.data

/-- Model of `s.startsWith(pre)`. -/
def strStartsWith (s pre : String) : Bool :=
  pre.data.isPrefixOf s.data

/-- JavaScript truthiness coercion of a string to an optional value:
`s || undefined` yields `undefined` exactly when `s` is empty. -/
def jsOrNone (s : String) : Option String :=
  if s = "" then none else some s

/-- JavaScript `a || b` where `a` is an optional string and `b` a string:
the fallback is taken when `a` is `undefined` or empty. -/
def jsOrString (a : Option String) (b : String) : String :=
  match a with
  | some s => if s = "" then b else s
  | none => b

/-- Digits-to-number accumulation (the numeric value of a digit run). -/
def digitsToNat (cs : List Char) : Nat :=
  cs.foldl (fun a c => a * 10 + (c.toNat - 48)) 0

/-- A JavaScript `number` that may be `NaN` (`none` models `NaN`). -/
abbrev JsNum := Option ℚ

/-- Model of JavaScript `parseFloat` on the character sequences the scraper
produces (optional sign, integer digits, optional fractional digits; any
trailing non-numeric text is ignored; no digits at all yields `NaN`). -/
def parseFloatChars (cs0 : List Char) : JsNum :=
  let cs1 := cs0.dropWhile Char.isWhitespace
  let signed : Int × List Char :=
    match cs1 with
    | '-' :: r => (-1, r)
    | '+' :: r => (1, r)
    | _ => (1, cs1)
  let intPart := signed.2.takeWhile Char.isDigit
  let rest := signed.2.dropWhile Char.isDigit
  let fracPart : List Char :=
    match rest with
    | '.' :: r => r.takeWhile Char.isDigit
    | _ => []
  if intPart.isEmpty && fracPart.isEmpty then none
  else
    some (mkRat
      (signed.1 * (digitsToNat intPart * 10 ^ fracPart.length + digitsToNat fracPart))
      (10 ^ fracPart.length))

/-! ### Data model (`src/types.ts`) -/

inductive Status
  | sold
  | under_offer
  | no_offer
deriving DecidableEq, Repr

/-- A calendar date-time value; a JavaScript `Date` whose time value is not
`NaN`. -/
structure DateVal where
  year : Nat
  month : Nat
  day : Nat
  hour : Nat
  minute : Nat
  second : Nat
deriving DecidableEq, Repr

/-- A JavaScript `Date` object: `none` models an Invalid Date (`NaN` time
value). -/
abbrev JsDate := Option DateVal

structure ScraperOptions where
  suburb : String
  headless : Option Bool := none
  timeout : Option Nat := none
deriving DecidableEq, Repr

/-- The `Property` record shape from `src/types.ts`, restricted to the fields
the extractor populates. -/
structure Property where
  property_url : String
  street_address : Option String := none
  estate_complex : Option String := none
  suburb : String
  city : Option String := none
  postal_code : Option String := none
  floor_size_sqm : Option JsNum := none
  total_price : Option JsNum := none
  price_per_sqm : Option JsNum := none
  status : Option Status := none
  property_type : Option String := none
  bedrooms : Option Nat := none
  bathrooms : Option Nat := none
  listing_date : Option JsDate := none
deriving DecidableEq, Repr

structure ScraperResult where
  success : Bool
  propertiesScraped : Nat
  propertiesSaved : Nat
  errors : List String
  message : String
  properties : List Property
deriving DecidableEq, Repr

/-! ### Field parsers (`Property24Scraper.parseAddress`, `parsePrice`,
`extractNumber`, `parseDate`) -/

structure AddressParts where
  street : Option String := none
  estate : Option String := none
  suburb : Option String := none
  city : Option String := none
  postalCode : Option String := none
deriving DecidableEq, Repr

/-- Model of `parseAddress`: split on commas, trim each part, convert empty
parts and missing positions to absence. -/
def parseAddress (addressText : String) : AddressParts :=
  let parts := (jsSplitComma addressText).map jsTrim
  { street := (parts[0]?).bind jsOrNone
    estate := (parts[1]?).bind jsOrNone
    suburb := (parts[2]?).bind jsOrNone
    city := (parts[3]?).bind jsOrNone
    postalCode := (parts[4]?).bind jsOrNone }

/-- The character class of the price regexes: whitespace, comma, digit, dot. -/
def priceClass (c : Char) : Bool :=
  c.isWhitespace || c = ',' || c.isDigit || c = '.'

/-- Leftmost match of the regex `R[\s,\d.]+` (case-sensitive): an `R`
followed by a nonempty greedy run of price-class characters. -/
def matchTotalPrice : List Char → Option (List Char)
  | [] => none
  | c :: rest =>
    if c = 'R' then
      let run := rest.takeWhile priceClass
      if run.isEmpty then matchTotalPrice rest else some (c :: run)
    else matchTotalPrice rest

/-- The tail `\s*per\s*m²` of the price-per-area regex, case-insensitively;
returns the consumed characters when it matches at the head. -/
def perSqmTail (after : List Char) : Option (List Char) :=
  let ws1 := after.takeWhile Char.isWhitespace
  match after.drop ws1.length with
  | p :: e :: r :: r2 =>
    if p.toLower = 'p' && e.toLower = 'e' && r.toLower = 'r' then
      let ws2 := r2.takeWhile Char.isWhitespace
      match r2.drop ws2.length with
      | m :: sq :: _ =>
        if m.toLower = 'm' && sq = '²' then
          some (ws1 ++ [p, e, r] ++ ws2 ++ [m, sq])
        else none
      | _ => none
    else none
  | _ => none

/-- Greedy backtracking over the length of the `[\s,\d.]+` run: try the
longest run first, as the regex engine does. -/
def perSqmRun (c : Char) (run rest : List Char) : Nat → Option (List Char)
  | 0 => none
  | n + 1 =>
    match perSqmTail (rest.drop (n + 1)) with
    | some tail => some (c :: run.take (n + 1) ++ tail)
    | none => perSqmRun c run rest n

/-- Leftmost match of the regex `R[\s,\d.]+\s*per\s*m²` with the `i` flag. -/
def matchPerSqm : List Char → Option (List Char)
  | [] => none
  | c :: rest =>
    if c.toLower = 'r' then
      let run := rest.takeWhile priceClass
      match perSqmRun c run rest run.length with
      | some m => some m
      | none => matchPerSqm rest
    else matchPerSqm rest

/-- Characters removed by `replace(/[R\s,]/g, "")`. -/
def stripTotalChar (c : Char) : Bool :=
  c = 'R' || c.isWhitespace || c = ','

/-- Characters removed by `replace(/[R\s,\/m²]/gi, "")`. -/
def stripPerSqmChar (c : Char) : Bool :=
  c.toLower = 'r' || c.isWhitespace || c = ',' || c = '/' || c.toLower = 'm' || c = '²'

structure PriceResult where
  totalPrice : Option JsNum := none
  pricePerSqm : Option JsNum := none
deriving DecidableEq, Repr

/-- Model of `parsePrice`. -/
def parsePrice (priceText : String) : PriceResult :=
  { totalPrice :=
      (matchTotalPrice priceText.data).map
        (fun m => parseFloatChars (m.filter (fun c => !stripTotalChar c)))
    pricePerSqm :=
      (matchPerSqm priceText.data).map
        (fun m => parseFloatChars (m.filter (fun c => !stripPerSqmChar c))) }

/-- Model of `extractNumber`: leftmost match of `(\d+)\s*(?:kw1|kw2)/i`,
returning `parseInt` of the captured digit run. -/
def scanNumKw (kws : List (List Char)) : List Char → Option Nat
  | [] => none
  | cs@(_ :: rest) =>
    let digits := cs.takeWhile Char.isDigit
    if digits.isEmpty then scanNumKw kws rest
    else
      let after := (cs.drop digits.length).dropWhile Char.isWhitespace
      if kws.any (fun kw => kw.isPrefixOf (after.map Char.toLower)) then
        some (digitsToNat digits)
      else scanNumKw kws rest

def extractNumber (text : String) (kws : List (List Char)) : Option Nat :=
  scanNumKw kws text.data

/-! ### Date parsing (`Property24Scraper.parseDate`) -/

def allDigits (cs : List Char) : Bool :=
  !cs.isEmpty && cs.all Char.isDigit

def isLeap (y : Nat) : Bool :=
  (y % 4 = 0 && y % 100 != 0) || y % 400 = 0

def daysInMonth (y m : Nat) : Nat :=
  if m = 2 then (if isLeap y then 29 else 28)
  else if m = 4 || m = 6 || m = 9 || m = 11 then 30
  else 31

/-- Date component of a date string `y-m-d`: calendar-validated, as
JavaScript `Date` string parsing rejects out-of-range components. -/
def parseDatePart (cs : List Char) : Option (Nat × Nat × Nat) :=
  match splitChar '-' cs with
  | [ys, ms, ds] =>
    if allDigits ys && allDigits ms && allDigits ds then
      let y := digitsToNat ys
      let m := digitsToNat ms
      let d := digitsToNat ds
      if 1 ≤ m && m ≤ 12 && 1 ≤ d && d ≤ daysInMonth y m then some (y, m, d)
      else none
    else none
  | _ => none

/-- Time component `HH:MM[:SS[.fff]][Z]` of a timestamp string. -/
def parseTimePart (cs0 : List Char) : Option (Nat × Nat × Nat) :=
  let cs := if cs0.getLast? = some 'Z' then cs0.dropLast else cs0
  match splitChar ':' cs with
  | [hs, ms] =>
    if allDigits hs && allDigits ms then
      let h := digitsToNat hs
      let mi := digitsToNat ms
      if h < 24 && mi < 60 then some (h, mi, 0) else none
    else none
  | [hs, ms, ss] =>
    let secParts := splitChar '.' ss
    match secParts with
    | [si] =>
      if allDigits hs && allDigits ms && allDigits si then
        let h := digitsToNat hs
        let mi := digitsToNat ms
        let se := digitsToNat si
        if h < 24 && mi < 60 && se < 60 then some (h, mi, se) else none
      else none
    | [si, fr] =>
      if allDigits hs && allDigits ms && allDigits si && allDigits fr then
        let h := digitsToNat hs
        let mi := digitsToNat ms
        let se := digitsToNat si
        if h < 24 && mi < 60 && se < 60 then some (h, mi, se) else none
      else none
    | _ => none
  | _ => none

/-- Model of `new Date(string)` on the string shapes the scraper builds:
`none` is an Invalid Date. -/
def jsDateOfString (s : String) : JsDate :=
  match splitChar 'T' s.data with
  | [d] => (parseDatePart d).map (fun yd => ⟨yd.1, yd.2.1, yd.2.2, 0, 0, 0⟩)
  | [d, t] =>
    match parseDatePart d, parseTimePart t with
    | some yd, some hms => some ⟨yd.1, yd.2.1, yd.2.2, hms.1, hms.2.1, hms.2.2⟩
    | _, _ => none
  | _ => none

def digitsPrefix (n : Nat) (cs : List Char) : Option (String × List Char) :=
  let pre := cs.take n
  if pre.length = n && pre.all Char.isDigit then some (⟨pre⟩, cs.drop n)
  else none

def sepPrefix : List Char → Option (List Char)
  | c :: rest => if c = '/' || c = '-' then some rest else none
  | [] => none

/-- One anchored attempt of `(\d{1,2})[\/\-](\d{1,2})[\/\-](\d{4})` with
fixed digit counts for the first two groups. -/
def tryDMY (dn mn : Nat) (cs : List Char) : Option (String × String × String) :=
  match digitsPrefix dn cs with
  | none => none
  | some (d, r1) =>
    match sepPrefix r1 with
    | none => none
    | some r2 =>
      match digitsPrefix mn r2 with
      | none => none
      | some (m, r3) =>
        match sepPrefix r3 with
        | none => none
        | some r4 =>
          match digitsPrefix 4 r4 with
          | none => none
          | some (y, _) => some (d, m, y)

/-- Leftmost match of `(\d{1,2})[\/\-](\d{1,2})[\/\-](\d{4})`, with the
greedy two-digit alternative tried before the one-digit one. -/
def matchDMY : List Char → Option (String × String × String)
  | [] => none
  | cs@(_ :: rest) =>
    match tryDMY 2 2 cs with
    | some r => some r
    | none =>
      match tryDMY 2 1 cs with
      | some r => some r
      | none =>
        match tryDMY 1 2 cs with
        | some r => some r
        | none =>
          match tryDMY 1 1 cs with
          | some r => some r
          | none => matchDMY rest

/-- Model of `parseDate`: outer `none` is `undefined`; `some none` is an
Invalid Date returned to the caller. The `d/m/y` branch rebuilds a `y-m-d`
string and returns the resulting `Date` without a validity check. -/
def parseDate (dateText : Option String) : Option JsDate :=
  match dateText with
  | none => none
  | some s =>
    if s = "" then none
    else
      let viaT : Option JsDate :=
        if s.data.contains 'T' then
          match jsDateOfString s with
          | some d => some (some d)
          | none => none
        else none
      match viaT with
      | some d => some d
      | none =>
        match matchDMY s.data with
        | some (d, m, y) => some (jsDateOfString (y ++ "-" ++ m ++ "-" ++ d))
        | none => none

/-! ### Record extraction (`Property24Scraper.extractProperties`) -/

/-- One candidate listing container, described by what the selector queries
in `extractProperties` return for it. -/
structure Container where
  forSaleHrefs : List String := []
  titleHref : Option String := none
  addressText : String := ""
  priceText : String := ""
  propertyTypeText : String := ""
  featuresText : String := ""
  statusText : String := ""
  dateAttr : Option String := none
  listedText : String := ""
deriving DecidableEq, Repr

/-- URL resolution for one container: first truthy href among the
`a[href*="/for-sale/"]` links, else the title-link fallback; an absent or
empty href resolves to nothing. -/
def resolvePropertyUrl (c : Container) : Option String :=
  match c.forSaleHrefs.find? (fun h => h != "") with
  | some h => some h
  | none =>
    match c.titleHref with
    | some h => if h = "" then none else some h
    | none => none

def BASE_URL : String := "https://www.property24.com"

/-- Status keyword classification applied to the lowercased status text. -/
def classifyStatus (statusTextLower : String) : Option Status :=
  if containsStr statusTextLower "sold" then some Status.sold
  else if containsStr statusTextLower "offer" then some Status.under_offer
  else none

/-- Extraction of a single container into a record; `none` when the
container has no resolvable listing link. -/
def extractOne (opts : ScraperOptions) (c : Container) : Option Property :=
  match resolvePropertyUrl c with
  | none => none
  | some href =>
    let fullUrl := if strStartsWith href "http" then href else BASE_URL ++ href
    let addressParts := parseAddress c.addressText
    let price := parsePrice c.priceText
    some
      { property_url := fullUrl
        street_address := addressParts.street
        estate_complex := addressParts.estate
        suburb := jsOrString addressParts.suburb opts.suburb
        city := addressParts.city
        postal_code := addressParts.postalCode
        floor_size_sqm :=
          (scanNumKw [['m', '²'], ['s', 'q', 'm'], ['m', '2']]
            c.featuresText.data).map (fun n => some (n : ℚ))
        total_price := price.totalPrice
        price_per_sqm := price.pricePerSqm
        status := classifyStatus (jsToLower c.statusText)
        property_type := jsOrNone (jsTrim c.propertyTypeText)
        bedrooms := extractNumber c.featuresText [['b', 'e', 'd'], ['b', 'e', 'd', 'r', 'o', 'o', 'm']]
        bathrooms := extractNumber c.featuresText [['b', 'a', 't', 'h'], ['b', 'a', 't', 'h', 'r', 'o', 'o', 'm']]
        listing_date := parseDate (some (jsOrString c.dateAttr c.listedText)) }

/-- Model of `extractProperties` on one page of containers. -/
def extractProperties (opts : ScraperOptions) (cs : List Container) : List Property :=
  cs.filterMap (extractOne opts)

/-! ### Pagination walker (`Property24Scraper.extractPropertiesWithPagination`)

The rendered site is abstracted as one function per role: `extract n` is
what `extractProperties` yields on the page reached at loop counter `n`,
and `next n` is whether `goToNextPage` finds and activates a next-page
control there. -/

def maxPages : Nat := 100

/-- The body of the `while (pageNumber <= maxPages)` loop; the fuel argument
is `maxPages - pageNumber + 1`, the number of loop iterations the guard
still admits. -/
def paginateAux (extract : Nat → List Property) (next : Nat → Bool) :
    Nat → Nat → List Property
  | 0, _ => []
  | fuel + 1, pageNumber =>
    let pageProps := extract pageNumber
    if next pageNumber then
      pageProps ++ paginateAux extract next fuel (pageNumber + 1)
    else pageProps

/-- Model of `extractPropertiesWithPagination`. -/
def extractPropertiesWithPagination (extract : Nat → List Property)
    (next : Nat → Bool) : List Property :=
  paginateAux extract next maxPages 1

/-- Number of `extractProperties` calls the loop performs. -/
def paginateCalls (next : Nat → Bool) : Nat → Nat → Nat
  | 0, _ => 0
  | fuel + 1, pageNumber =>
    1 + (if next pageNumber then paginateCalls next fuel (pageNumber + 1) else 0)

def extractionCalls (next : Nat → Bool) : Nat :=
  paginateCalls next maxPages 1

/-- Concatenation of the pages `p, p + 1, ..., p + n - 1` in page order. -/
def concatPages (extract : Nat → List Property) (p : Nat) : Nat → List Property
  | 0 => []
  | n + 1 => extract p ++ concatPages extract (p + 1) n

/-! ### Location resolution (`Property24Scraper.findListingUrlForSuburb`) -/

/-- What one search-input selector does when tried: whether `page.$` finds
it, and, when attempted, either the URL the page shows after submission
(`some u`) or an exception thrown during typing or submission (`none`). -/
structure SelectorEnv where
  present : Bool
  flow : Option String
deriving DecidableEq, Repr

structure ResolveEnv where
  homepageLoads : Bool
  sels : List SelectorEnv
deriving DecidableEq, Repr

inductive SearchAction
  | gotoHomepage
  | typeQuery
  | submitSearch
deriving DecidableEq, Repr

/-- The URL-shape heuristic: `/\/properties\//i`, `/for-sale/i`, `/\/p\//i`. -/
def urlLooksLikeListing (u : String) : Bool :=
  containsStr (jsToLower u) "/properties/" ||
    containsStr (jsToLower u) "for-sale" ||
    containsStr (jsToLower u) "/p/"

/-- The `for (const sel of searchInputSelectors)` loop: the first present
selector whose flow reaches an accepted URL wins; an exception or a
rejected URL falls through to the next selector. -/
def trySelectors : List SelectorEnv → Option String × List SearchAction
  | [] => (none, [])
  | sel :: rest =>
    if sel.present then
      match sel.flow with
      | some u =>
        if urlLooksLikeListing u then (some u, [SearchAction.typeQuery, SearchAction.submitSearch])
        else
          let r := trySelectors rest
          (r.1, SearchAction.typeQuery :: SearchAction.submitSearch :: r.2)
      | none =>
        let r := trySelectors rest
        (r.1, SearchAction.typeQuery :: r.2)
    else trySelectors rest

structure ResolveResult where
  result : Except String String
  cacheAfter : Option String
  actions : List SearchAction
deriving Repr

/-- Model of `findListingUrlForSuburb`, with the `listingUrlForSuburb`
instance field passed and returned explicitly. The source checks the field
on entry but contains no assignment to it, so `cacheAfter` equals the
incoming cache on every path. -/
def findListingUrlForSuburb (env : ResolveEnv) (suburb : String)
    (cache : Option String) : ResolveResult :=
  match cache with
  | some u => ⟨Except.ok u, some u, []⟩
  | none =>
    if env.homepageLoads then
      match trySelectors env.sels with
      | (some u, as) => ⟨Except.ok u, none, SearchAction.gotoHomepage :: as⟩
      | (none, as) =>
        ⟨Except.error ("Could not resolve listing URL for suburb: " ++ suburb),
          none, SearchAction.gotoHomepage :: as⟩
    else ⟨Except.error "Failed to load Property24 homepage", none,
      [SearchAction.gotoHomepage]⟩

/-! ### The run (`Property24Scraper.scrapeSuburb`) -/

/-- Environment of one run: browser state, resolver environment, whether
`page.goto(searchUrl)` succeeds, its error message when it fails, and the
containers plus next-page control of each visited page. -/
structure ScrapeEnv where
  browserInit : Bool
  resolveEnv : ResolveEnv
  listingPageLoads : Bool
  gotoErrorMsg : String
  pages : Nat → List Container × Bool

def exceptOk : Except String String → Bool
  | Except.ok _ => true
  | Except.error _ => false

/-- The failure path of `scrapeSuburb`: the catch block builds this result
from the message of the caught error. -/
def failResult (e : String) : ScraperResult :=
  { success := false
    propertiesScraped := 0
    propertiesSaved := 0
    errors := [e]
    message := "Failed to scrape properties: " ++ e
    properties := [] }

/-- Model of `scrapeSuburb`. -/
def scrapeSuburb (opts : ScraperOptions) (env : ScrapeEnv)
    (cache : Option String) : ScraperResult :=
  if env.browserInit then
    match (findListingUrlForSuburb env.resolveEnv opts.suburb cache).result with
    | Except.error e => failResult e
    | Except.ok _ =>
      if env.listingPageLoads then
        let props := extractPropertiesWithPagination
          (fun n => extractProperties opts (env.pages n).1)
          (fun n => (env.pages n).2)
        { success := true
          propertiesScraped := props.length
          propertiesSaved := 0
          errors := []
          message := "Successfully scraped " ++ toString props.length ++
            " properties from " ++ opts.suburb
          properties := props }
      else failResult env.gotoErrorMsg
  else failResult "Browser not initialized"

/-- Whether the run reaches the pagination stage: browser initialized, the
location URL resolved, and the listing page navigation succeeded. -/
def reachesPagination (opts : ScraperOptions) (env : ScrapeEnv)
    (cache : Option String) : Bool :=
  env.browserInit &&
    exceptOk (findListingUrlForSuburb env.resolveEnv opts.suburb cache).result &&
    env.listingPageLoads

/-! ### Helper lemmas -/

theorem string_data_append (s t : String) : (s ++ t).data = s.data ++ t.data := by
  cases s
  cases t
  rfl

theorem dropWhile_head?_not {α} (p : α → Bool) :
    ∀ (l : List α) (a : α), (l.dropWhile p).head? = some a → p a = false := by
  intro l
  induction l with
  | nil => intro a h; simp at h
  | cons b t ih =>
    intro a h
    cases hb : p b with
    | true =>
      rw [List.dropWhile_cons, if_pos hb] at h
      exact ih a h
    | false =>
      rw [List.dropWhile_cons, if_neg (by simp [hb])] at h
      simp at h
      rw [← h]
      exact hb

theorem dropWhile_dropWhile {α} (p : α → Bool) (l : List α) :
    (l.dropWhile p).dropWhile p = l.dropWhile p := by
  cases h : l.dropWhile p with
  | nil => rfl
  | cons a t =>
    have ha : p a = false := dropWhile_head?_not p l a (by rw [h]; rfl)
    rw [List.dropWhile_cons, if_neg (by simp [ha])]

theorem dropWhileDecomp {α} (p : α → Bool) (l : List α) :
    ∃ t, t ++ l.dropWhile p = l := by
  induction l with
  | nil => exact ⟨[], rfl⟩
  | cons a l ih =>
    cases hb : p a with
    | true =>
      obtain ⟨t, ht⟩ := ih
      exact ⟨a :: t, by rw [List.dropWhile_cons, if_pos hb, List.cons_append, ht]⟩
    | false =>
      exact ⟨[], by rw [List.dropWhile_cons, if_neg (by simp [hb]), List.nil_append]⟩

theorem dropWhile_self_of_append {α} (p : α → Bool) (u v : List α)
    (h : (u ++ v).dropWhile p = u ++ v) : u.dropWhile p = u := by
  cases u with
  | nil => rfl
  | cons c u2 =>
    rw [List.cons_append, List.dropWhile_cons] at h
    by_cases hc : p c
    · exfalso
      rw [if_pos hc] at h
      have hlen := congrArg List.length h
      rw [List.length_cons] at hlen
      have hle := (List.dropWhile_sublist (l := u2 ++ v) p).length_le
      omega
    · rw [List.dropWhile_cons, if_neg hc]

theorem jsTrimChars_idem (l : List Char) : jsTrimChars (jsTrimChars l) = jsTrimChars l := by
  unfold jsTrimChars
  set ws := Char.isWhitespace with hws
  set A := l.dropWhile ws with hA
  have hAself : A.dropWhile ws = A := dropWhile_dropWhile ws l
  set T := (A.reverse.dropWhile ws).reverse with hT
  have hTpre : ∃ v, T ++ v = A := by
    obtain ⟨t, ht⟩ := dropWhileDecomp ws A.reverse
    refine ⟨t.reverse, ?_⟩
    have := congrArg List.reverse ht
    rw [List.reverse_append, List.reverse_reverse] at this
    exact this
  have hTself : T.dropWhile ws = T := by
    obtain ⟨v, hv⟩ := hTpre
    exact dropWhile_self_of_append ws T v (by rw [hv]; exact hAself)
  rw [hTself, List.reverse_reverse, dropWhile_dropWhile]

theorem jsTrim_idem (s : String) : jsTrim (jsTrim s) = jsTrim s := by
  show (⟨jsTrimChars (jsTrimChars s.data)⟩ : String) = ⟨jsTrimChars s.data⟩
  rw [jsTrimChars_idem]

theorem addrField_some {l : List String} {i : Nat} {v : String}
    (h : ((l.map jsTrim)[i]?).bind jsOrNone = some v) :
    v ≠ "" ∧ jsTrim v = v := by
  cases hl : l[i]? with
  | none => rw [List.getElem?_map, hl] at h; simp at h
  | some seg =>
    rw [List.getElem?_map, hl] at h
    simp only [Option.map_some', Option.some_bind] at h
    unfold jsOrNone at h
    by_cases he : jsTrim seg = ""
    · rw [if_pos he] at h; exact Option.noConfusion h
    · rw [if_neg he] at h
      have hv : jsTrim seg = v := Option.some.inj h
      constructor
      · rw [← hv]; exact he
      · rw [← hv]; exact jsTrim_idem seg

theorem addrField_none {l : List String} {i : Nat} (h : l.length ≤ i) :
    ((l.map jsTrim)[i]?).bind jsOrNone = none := by
  rw [List.getElem?_eq_none (by simpa using h)]
  rfl

theorem matchTotalPrice_eq_none :
    ∀ {cs : List Char}, (∀ c ∈ cs, c.toLower ≠ 'r') → matchTotalPrice cs = none := by
  intro cs
  induction cs with
  | nil => intro _; rfl
  | cons c rest ih =>
    intro h
    have hc : ¬c = 'R' := by
      intro e
      exact h c (List.mem_cons_self c rest) (by rw [e]; decide)
    simp only [matchTotalPrice]
    rw [if_neg hc]
    exact ih (fun x hx => h x (List.mem_cons_of_mem c hx))

theorem matchPerSqm_eq_none :
    ∀ {cs : List Char}, (∀ c ∈ cs, c.toLower ≠ 'r') → matchPerSqm cs = none := by
  intro cs
  induction cs with
  | nil => intro _; rfl
  | cons c rest ih =>
    intro h
    simp only [matchPerSqm]
    rw [if_neg (h c (List.mem_cons_self c rest))]
    exact ih (fun x hx => h x (List.mem_cons_of_mem c hx))

theorem classifyStatus_ne_no_offer (t : String) :
    classifyStatus t ≠ some Status.no_offer := by
  by_cases c1 : containsStr t "sold" <;> by_cases c2 : containsStr t "offer" <;>
    simp [classifyStatus, c1, c2]

theorem extractOne_status {opts : ScraperOptions} {c : Container} {p : Property}
    (h : extractOne opts c = some p) :
    p.status = classifyStatus (jsToLower c.statusText) := by
  unfold extractOne at h
  cases hr : resolvePropertyUrl c with
  | none => rw [hr] at h; exact Option.noConfusion h
  | some href =>
    rw [hr] at h
    have h2 := Option.some.inj h
    rw [← h2]

/-- C6: for every status text, text containing "sold" (case-insensitively)
classifies as sold even when it also contains "offer"; text containing
"offer" without "sold" classifies as under_offer; text containing neither
leaves the status absent; and no extracted record ever carries the value
no_offer. -/
theorem C6_status_classification (t : String) :
    (containsStr (jsToLower t) "sold" = true →
      classifyStatus (jsToLower t) = some Status.sold) ∧
    (containsStr (jsToLower t) "sold" = false →
      containsStr (jsToLower t) "offer" = true →
      classifyStatus (jsToLower t) = some Status.under_offer) ∧
    (containsStr (jsToLower t) "sold" = false →
      containsStr (jsToLower t) "offer" = false →
      classifyStatus (jsToLower t) = none) ∧
    (∀ (opts : ScraperOptions) (cs : List Container) (p : Property),
      p ∈ extractProperties opts cs → p.status ≠ some Status.no_offer) := by
  refine ⟨?_, ?_, ?_, ?_⟩
  · intro h1; simp [classifyStatus, h1]
  · intro h1 h2; simp [classifyStatus, h1, h2]
  · intro h1 h2; simp [classifyStatus, h1, h2]
  · intro opts cs p hp hcontra
    obtain ⟨c, _, he⟩ := List.mem_filterMap.mp hp
    rw [extractOne_status he] at hcontra
    exact classifyStatus_ne_no_offer (jsToLower c.statusText) hcontra

/-- Witness for C6 at a concrete status text containing both keywords. -/
theorem C6_status_classification_witness :
    classifyStatus (jsToLower "SOLD (was under offer)") = some Status.sold :=
  (C6_status_classification "SOLD (was under offer)").1 (by decide)

/-- C7: the example price text parses to 1250000; a text additionally
containing an "R ... per m²" pattern also yields a price-per-area value; a
text with no currency marker at all yields both fields absent. The model
is a total function, so no input surfaces a parse error. -/
theorem C7_parsePrice :
    (parsePrice "R 1,250,000").totalPrice = some (some 1250000) ∧
    (parsePrice "R 1,250,000").pricePerSqm = none ∧
    (parsePrice "R 1,250,000 (R 9,000 per m²)").totalPrice = some (some 1250000) ∧
    (parsePrice "R 1,250,000 (R 9,000 per m²)").pricePerSqm = some (some 9000) ∧
    (∀ s : String, (∀ c ∈ s.data, c.toLower ≠ 'r') →
      (parsePrice s).totalPrice = none ∧ (parsePrice s).pricePerSqm = none) := by
  refine ⟨by decide, by decide, by decide, by decide, ?_⟩
  intro s hs
  constructor
  · show ((matchTotalPrice s.data).map _) = none
    rw [matchTotalPrice_eq_none hs]
    rfl
  · show ((matchPerSqm s.data).map _) = none
    rw [matchPerSqm_eq_none hs]
    rfl

/-- Witness for C7 at a concrete currency-free input. -/
theorem C7_parsePrice_witness :
    (parsePrice "POA - call agent").totalPrice = none ∧
    (parsePrice "POA - call agent").pricePerSqm = none :=
  C7_parsePrice.2.2.2.2 "POA - call agent" (by decide)

/-- C9: address segmentation is positional, and inputs with fewer
comma-separated segments leave the trailing fields absent. -/
theorem C9_parseAddress_positional :
    parseAddress "12 Oak St, Oakwood Estate, Sandton, Johannesburg, 2196" =
      { street := some "12 Oak St"
        estate := some "Oakwood Estate"
        suburb := some "Sandton"
        city := some "Johannesburg"
        postalCode := some "2196" } ∧
    (∀ s : String,
      ((jsSplitComma s).length ≤ 1 → (parseAddress s).estate = none) ∧
      ((jsSplitComma s).length ≤ 2 → (parseAddress s).suburb = none) ∧
      ((jsSplitComma s).length ≤ 3 → (parseAddress s).city = none) ∧
      ((jsSplitComma s).length ≤ 4 → (parseAddress s).postalCode = none)) := by
  constructor
  · decide
  · intro s
    refine ⟨?_, ?_, ?_, ?_⟩ <;> intro hn <;> exact addrField_none hn

/-- Witness for C9 at a concrete two-segment input. -/
theorem C9_parseAddress_positional_witness :
    (parseAddress "12 Oak St, Sandton").suburb = none :=
  ((C9_parseAddress_positional.2 "12 Oak St, Sandton").2.1) (by decide)

/-- C10: every present field of a parsed address is a non-empty string with
surrounding whitespace trimmed; empty or whitespace-only segments yield
absence, never an empty string. -/
theorem C10_parseAddress_fields_trimmed (s : String) :
    (∀ v, (parseAddress s).street = some v → v ≠ "" ∧ jsTrim v = v) ∧
    (∀ v, (parseAddress s).estate = some v → v ≠ "" ∧ jsTrim v = v) ∧
    (∀ v, (parseAddress s).suburb = some v → v ≠ "" ∧ jsTrim v = v) ∧
    (∀ v, (parseAddress s).city = some v → v ≠ "" ∧ jsTrim v = v) ∧
    (∀ v, (parseAddress s).postalCode = some v → v ≠ "" ∧ jsTrim v = v) := by
  refine ⟨?_, ?_, ?_, ?_, ?_⟩ <;> intro v h <;> exact addrField_some h

/-- Witness for C10 at a concrete padded input. -/
theorem C10_parseAddress_fields_trimmed_witness :
    "12 Oak St" ≠ "" ∧ jsTrim "12 Oak St" = "12 Oak St" :=
  (C10_parseAddress_fields_trimmed "  12 Oak St  ,   ,").1 "12 Oak St" (by decide)

/-- C8 (code evaluation at the failing input): the day/month/year branch of
parseDate returns the constructed Date without a validity check, so the
pattern-matching but non-calendar input "99/99/2024" yields a present
Invalid Date value (modelled as `some none`) instead of absence. -/
theorem C8_parseDate_invalid_date :
    parseDate (some "99/99/2024") = some none ∧ (some none : Option JsDate) ≠ none := by
  exact ⟨by decide, by decide⟩

theorem paginateAux_always (extract : Nat → List Property) (next : Nat → Bool)
    (h : ∀ n, next n = true) :
    ∀ fuel p, paginateAux extract next fuel p = concatPages extract p fuel ∧
      paginateCalls next fuel p = fuel := by
  intro fuel
  induction fuel with
  | zero => intro p; exact ⟨rfl, rfl⟩
  | succ f ih =>
    intro p
    constructor
    · simp only [paginateAux, concatPages, h p, if_true]
      rw [(ih (p + 1)).1]
    · simp only [paginateCalls, h p, if_true]
      rw [(ih (p + 1)).2]
      omega

theorem paginateAux_stops (extract : Nat → List Property) (next : Nat → Bool) :
    ∀ fuel p N, p ≤ N → N < p + fuel →
      (∀ k, p ≤ k → k < N → next k = true) → next N = false →
      paginateAux extract next fuel p = concatPages extract p (N + 1 - p) ∧
      paginateCalls next fuel p = N + 1 - p := by
  intro fuel
  induction fuel with
  | zero => intro p N h1 h2 h3 h4; exact absurd h2 (by omega)
  | succ f ih =>
    intro p N h1 h2 h3 h4
    rcases eq_or_lt_of_le h1 with heq | hlt
    · subst heq
      have hone : p + 1 - p = 1 := by omega
      constructor
      · simp only [paginateAux, h4, hone, concatPages]
        rw [if_neg Bool.false_ne_true]
        simp [concatPages]
      · simp only [paginateCalls, h4, hone]
        rw [if_neg Bool.false_ne_true]
    · have hnp : next p = true := h3 p le_rfl hlt
      have ihh := ih (p + 1) N (by omega) (by omega)
        (fun k hk1 hk2 => h3 k (by omega) hk2) h4
      have hcount : N + 1 - p = (N + 1 - (p + 1)) + 1 := by omega
      constructor
      · simp only [paginateAux, hnp, if_true]
        rw [ihh.1, hcount]
        rfl
      · simp only [paginateCalls, hnp, if_true]
        rw [ihh.2, hcount]
        omega

/-- C3: when a next-page control is found on every page, the pagination
loop stops after exactly the fixed page cap of 100 pages (a constant of
the function, not a caller input), performing exactly 100 extraction
calls. -/
theorem C3_pagination_safety_cap (extract : Nat → List Property)
    (next : Nat → Bool) (h : ∀ n, next n = true) :
    maxPages = 100 ∧ extractionCalls next = 100 ∧
    extractPropertiesWithPagination extract next = concatPages extract 1 100 := by
  refine ⟨rfl, ?_, ?_⟩
  · exact (paginateAux_always extract next h maxPages 1).2
  · exact (paginateAux_always extract next h maxPages 1).1

/-- Witness for C3 with next-page controls always present. -/
theorem C3_pagination_safety_cap_witness :
    maxPages = 100 ∧ extractionCalls (fun _ => true) = 100 ∧
    extractPropertiesWithPagination (fun _ => []) (fun _ => true) =
      concatPages (fun _ => []) 1 100 :=
  C3_pagination_safety_cap (fun _ => []) (fun _ => true) (fun _ => rfl)

/-- C4: when page N is the first page without a next-page control (N within
the cap), the walk performs exactly N extraction calls and returns the
concatenation of the N pages in page order; pages yielding zero records do
not stop it, since `extract` is arbitrary. -/
theorem C4_pagination_exact (extract : Nat → List Property) (next : Nat → Bool)
    (N : Nat) (h1 : 1 ≤ N) (h2 : N ≤ maxPages)
    (h3 : ∀ k, 1 ≤ k → k < N → next k = true) (h4 : next N = false) :
    extractPropertiesWithPagination extract next = concatPages extract 1 N ∧
    extractionCalls next = N := by
  have h := paginateAux_stops extract next maxPages 1 N h1 (by omega) h3 h4
  have hN : N + 1 - 1 = N := by omega
  rw [hN] at h
  exact ⟨h.1, h.2⟩

/-- Witness for C4 with two pages, the second lacking a next control, the
first yielding zero records. -/
theorem C4_pagination_exact_witness :
    extractPropertiesWithPagination
        (fun n => if n = 2 then [{ property_url := "u", suburb := "s" }] else [])
        (fun n => decide (n = 1)) =
      concatPages
        (fun n => if n = 2 then [{ property_url := "u", suburb := "s" }] else [])
        1 2 ∧
    extractionCalls (fun n => decide (n = 1)) = 2 :=
  C4_pagination_exact _ _ 2 (by decide) (by decide)
    (fun k hk1 hk2 => by
      have hk : k = 1 := by omega
      rw [hk]
      rfl)
    (by decide)

theorem resolvePropertyUrl_ne_empty {c : Container} {u : String}
    (hr : resolvePropertyUrl c = some u) : u ≠ "" := by
  cases hf : c.forSaleHrefs.find? (fun x => x != "") with
  | some x =>
    simp only [resolvePropertyUrl, hf] at hr
    have hx := List.find?_some hf
    simp at hx
    rw [← Option.some.inj hr]
    exact hx
  | none =>
    simp only [resolvePropertyUrl, hf] at hr
    cases ht : c.titleHref with
    | none =>
      simp only [ht] at hr
      exact Option.noConfusion hr
    | some x =>
      simp only [ht] at hr
      by_cases hx : x = ""
      · rw [if_pos hx] at hr; exact Option.noConfusion hr
      · rw [if_neg hx] at hr
        rw [← Option.some.inj hr]
        exact hx

theorem extractOne_none {opts : ScraperOptions} {c : Container}
    (h : resolvePropertyUrl c = none) : extractOne opts c = none := by
  unfold extractOne
  rw [h]

theorem extractOne_some_url {opts : ScraperOptions} {c : Container} {p : Property}
    (h : extractOne opts c = some p) :
    ∃ u, resolvePropertyUrl c = some u ∧ u ≠ "" ∧
      p.property_url = (if strStartsWith u "http" then u else BASE_URL ++ u) := by
  unfold extractOne at h
  cases hr : resolvePropertyUrl c with
  | none => rw [hr] at h; exact Option.noConfusion h
  | some u =>
    rw [hr] at h
    refine ⟨u, rfl, resolvePropertyUrl_ne_empty hr, ?_⟩
    rw [← Option.some.inj h]

theorem isPrefixOf_append_of_isPrefixOf {l1 l2 : List Char} (l3 : List Char)
    (h : l1.isPrefixOf l2 = true) : l1.isPrefixOf (l2 ++ l3) = true := by
  induction l1 generalizing l2 with
  | nil => simp
  | cons a as ih =>
    cases l2 with
    | nil => simp [List.isPrefixOf] at h
    | cons b bs =>
      simp only [List.cons_append, List.isPrefixOf, Bool.and_eq_true, beq_iff_eq] at h ⊢
      exact ⟨h.1, ih h.2⟩

theorem fullUrl_facts (u : String) (hu : u ≠ "") :
    (if strStartsWith u "http" then u else BASE_URL ++ u) ≠ "" ∧
    strStartsWith (if strStartsWith u "http" then u else BASE_URL ++ u) "http" = true := by
  by_cases hs : strStartsWith u "http" = true
  · rw [if_pos hs]
    exact ⟨hu, hs⟩
  · rw [if_neg hs]
    constructor
    · intro he
      have hd := congrArg String.data he
      rw [string_data_append] at hd
      have hnil : ("" : String).data = [] := rfl
      rw [hnil] at hd
      have hb := (List.append_eq_nil.mp hd).1
      exact absurd hb (by decide)
    · unfold strStartsWith
      rw [string_data_append]
      exact isPrefixOf_append_of_isPrefixOf u.data (by decide)

/-- C5: a container with no resolvable listing link contributes no record
(only that container is dropped), and every emitted record has a non-empty
absolute URL: a relative href is prefixed with the site base URL, an href
already starting with "http" is kept as is. -/
theorem C5_extract_urls (opts : ScraperOptions) :
    (∀ pre post c, resolvePropertyUrl c = none →
      extractProperties opts (pre ++ c :: post) =
        extractProperties opts pre ++ extractProperties opts post) ∧
    (∀ cs p, p ∈ extractProperties opts cs →
      p.property_url ≠ "" ∧ strStartsWith p.property_url "http" = true ∧
      ∃ c ∈ cs, ∃ u, resolvePropertyUrl c = some u ∧ u ≠ "" ∧
        p.property_url = (if strStartsWith u "http" then u else BASE_URL ++ u)) := by
  constructor
  · intro pre post c hc
    unfold extractProperties
    rw [List.filterMap_append]
    congr 1
    rw [List.filterMap_cons, extractOne_none hc]
  · intro cs p hp
    obtain ⟨c, hcmem, hce⟩ := List.mem_filterMap.mp hp
    obtain ⟨u, hru, hu, hurl⟩ := extractOne_some_url hce
    have hf := fullUrl_facts u hu
    rw [hurl]
    exact ⟨hf.1, hf.2, c, hcmem, u, hru, hu, rfl⟩

/-- Witness for C5: a linkless container between two linked ones is the
only one dropped, and an emitted record keeps an absolute href as is. -/
theorem C5_extract_urls_witness :
    extractProperties ⟨"Sandton", none, none⟩
        ([{ forSaleHrefs := ["/for-sale/a/1"] }] ++
          ({ forSaleHrefs := [] } : Container) ::
          [{ forSaleHrefs := ["/for-sale/b/2"] }]) =
      extractProperties ⟨"Sandton", none, none⟩ [{ forSaleHrefs := ["/for-sale/a/1"] }] ++
        extractProperties ⟨"Sandton", none, none⟩ [{ forSaleHrefs := ["/for-sale/b/2"] }] :=
  (C5_extract_urls ⟨"Sandton", none, none⟩).1
    [{ forSaleHrefs := ["/for-sale/a/1"] }]
    [{ forSaleHrefs := ["/for-sale/b/2"] }]
    { forSaleHrefs := [] }
    (by decide)

/-- C2 (code evaluation at the failing scenario): after a first successful
resolution, the instance cache is still empty — the source checks
`listingUrlForSuburb` on entry but never assigns it — so a second call on
the same instance re-performs the homepage navigation, the typing and the
submission instead of returning from the cache. -/
theorem C2_cache_never_populated :
    (findListingUrlForSuburb
        ⟨true, [⟨true, some "https://www.property24.com/for-sale/sandton"⟩]⟩
        "Sandton" none).result =
      Except.ok "https://www.property24.com/for-sale/sandton" ∧
    (findListingUrlForSuburb
        ⟨true, [⟨true, some "https://www.property24.com/for-sale/sandton"⟩]⟩
        "Sandton" none).cacheAfter = none ∧
    (findListingUrlForSuburb
        ⟨true, [⟨true, some "https://www.property24.com/for-sale/sandton"⟩]⟩
        "Sandton"
        (findListingUrlForSuburb
          ⟨true, [⟨true, some "https://www.property24.com/for-sale/sandton"⟩]⟩
          "Sandton" none).cacheAfter).actions =
      [SearchAction.gotoHomepage, SearchAction.typeQuery, SearchAction.submitSearch] :=
  ⟨rfl, rfl, rfl⟩

/-- C1: a run that fails before the pagination stage returns success false,
zero scraped records, an empty record list and a non-empty error list; a
run that reaches the pagination stage returns success true, whatever the
pages contain. -/
theorem C1_scrapeSuburb_outcome (opts : ScraperOptions) (env : ScrapeEnv)
    (cache : Option String) :
    (reachesPagination opts env cache = false →
      (scrapeSuburb opts env cache).success = false ∧
      (scrapeSuburb opts env cache).propertiesScraped = 0 ∧
      (scrapeSuburb opts env cache).properties = [] ∧
      (scrapeSuburb opts env cache).errors ≠ []) ∧
    (reachesPagination opts env cache = true →
      (scrapeSuburb opts env cache).success = true) := by
  unfold reachesPagination scrapeSuburb
  cases hb : env.browserInit with
  | false => simp [failResult]
  | true =>
    cases hr : (findListingUrlForSuburb env.resolveEnv opts.suburb cache).result with
    | error e => simp [exceptOk, failResult]
    | ok u =>
      cases hl : env.listingPageLoads with
      | false => simp [exceptOk, failResult]
      | true => simp [exceptOk]

/-- Witness for C1 on a run whose browser was never initialized. -/
theorem C1_scrapeSuburb_outcome_witness :
    (scrapeSuburb ⟨"Sandton", none, none⟩
        ⟨false, ⟨false, []⟩, false, "", fun _ => ([], false)⟩ none).success = false ∧
    (scrapeSuburb ⟨"Sandton", none, none⟩
        ⟨false, ⟨false, []⟩, false, "", fun _ => ([], false)⟩ none).propertiesScraped = 0 ∧
    (scrapeSuburb ⟨"Sandton", none, none⟩
        ⟨false, ⟨false, []⟩, false, "", fun _ => ([], false)⟩ none).properties = [] ∧
    (scrapeSuburb ⟨"Sandton", none, none⟩
        ⟨false, ⟨false, []⟩, false, "", fun _ => ([], false)⟩ none).errors ≠ [] :=
  (C1_scrapeSuburb_outcome ⟨"Sandton", none, none⟩
    ⟨false, ⟨false, []⟩, false, "", fun _ => ([], false)⟩ none).1 rfl
